import Mathlib

/-!
# lean_server: the response framer and the session manager of `app/server.go`

A shallow embedding of `depthDiff`, `REPLServer.ExecuteCommand`, the timeout
configuration of `main` and the `/healthz` handler, followed by the properties
established about them.

Conventions of the embedding.
* A Go `string` holding a line is a Lean `String`; `range line` visits its
  characters in order, `len(line) == 0` is emptiness.
* Go `int` counters are `Int` (a counter moves by at most one per character read).
* `float64` values are elements of a type `F` carrying what the code uses of them:
  the constants `0` and `-1.0` and the comparison `>` (`Float64Ops`).
* The output scanner is the list of lines it will still deliver; the clock reading
  `time.Since(start_time).Seconds()` taken in the iteration for a line travels with
  that line.
-/

namespace LeanServer

/-! ## `depthDiff` -/

/-- The local variables of `depthDiff`: `count`, `escaped` and the parameter
`inString`, which the loop updates in place. -/
structure ScanVars where
  count : Int
  escaped : Bool
  inString : Bool
deriving DecidableEq, Repr

/-- One iteration of `for _, char := range line` in `depthDiff`. -/
def depthStep (v : ScanVars) (char : Char) : ScanVars :=
  if v.escaped then
    { v with escaped := false }
  else if char = '{' ∧ v.inString = false then
    { v with count := v.count + 1 }
  else if char = '}' ∧ v.inString = false then
    { v with count := v.count - 1 }
  else if char = '\\' ∧ v.inString = false then
    { v with escaped := true }
  else if char = '"' then
    { v with inString := !v.inString }
  else
    v

/-- The whole loop of `depthDiff`, started with `count = 0`, `escaped = false`. -/
def depthLoop (line : String) (inString : Bool) : ScanVars :=
  line.data.foldl depthStep { count := 0, escaped := false, inString := inString }

/-- The function `depthDiff(line, inString)`: `return count, inString`. -/
def depthDiff (line : String) (inString : Bool) : Int × Bool :=
  ((depthLoop line inString).count, (depthLoop line inString).inString)

/-! ## The session: pipes, scanner, process state -/

/-- The float64 facilities used by `ExecuteCommand` and by the timeout configuration
of `main`: the constants `0` and `-1.0`, and the comparison `a > b`. -/
class Float64Ops (F : Type) where
  zero : F
  negOne : F
  gt : F → F → Bool

/-- Whole seconds, used to run the model on concrete inputs. -/
instance : Float64Ops Int where
  zero := 0
  negOne := -1
  gt a b := decide (b < a)

/-- One line the scanner delivers (`Scan` returns true, `Text` returns `text`).
`elapsed` is the value of `time.Since(start_time).Seconds()` read in the loop
iteration for this line; `err` is a read error the scanner records during the very
`Scan` call that delivers the line (a final line cut short by a failing read). -/
structure Token (F : Type) where
  text : String
  elapsed : F
  err : Option String
deriving DecidableEq, Repr

/-- The state of `bufio.Scanner` over the process's standard output: the lines still
to be delivered, the non-EOF read error met once they are exhausted (`none` when the
stream ends by EOF), and the error `Err` reports now. -/
structure Scanner (F : Type) where
  pending : List (Token F)
  endErr : Option String
  err : Option String
deriving DecidableEq, Repr

/-- The scanner keeps the first non-EOF error it meets. -/
def setErr (cur new : Option String) : Option String :=
  match cur with
  | some e => some e
  | none => new

/-- The write end of the process's standard input: the bytes accepted so far and,
when the pipe is closed or broken, the error every `Write` returns. -/
structure Pipe where
  written : String
  broken : Option String
deriving DecidableEq, Repr

/-- The call `stdin.Write(data)`: the error returned and the pipe afterwards. -/
def Pipe.Write (p : Pipe) (data : String) : Option String × Pipe :=
  match p.broken with
  | some e => (some e, p)
  | none => (none, { p with written := p.written ++ data })

/-- The part of `os.ProcessState` the program reads: the answer of `Exited()`. -/
structure ProcessState where
  exited : Bool
deriving DecidableEq, Repr

/-- The fields of `REPLServer` (the mutex apart): `cmd.ProcessState`, which is nil
until `Wait` has returned, `stdin` and `stdout`. -/
structure REPLServer (F : Type) where
  processState : Option ProcessState
  stdin : Pipe
  stdout : Scanner F
deriving DecidableEq, Repr

/-- The pair `([]byte, error)` returned by `ExecuteCommand`; `none` is nil. -/
structure Result where
  response : Option String
  err : Option String
deriving DecidableEq, Repr

/-! ## `ExecuteCommand` -/

/-- The local variables of the read loop of `ExecuteCommand`. -/
structure LoopVars where
  responseBuilder : String
  inResponse : Bool
  inString : Bool
  bracketCount : Int
deriving DecidableEq, Repr

/-- How the read loop is left: by `break` or by `Scan` returning false, or by the
`return nil, fmt.Errorf(...)` inside it. -/
inductive LoopExit where
  | fellOut
  | returned (err : String)
deriving DecidableEq, Repr

/-- The call `strings.HasPrefix(line, "{")`. -/
def startsWithBrace (line : String) : Bool :=
  "\x7b".data.isPrefixOf line.data

/-- The variables after `responseBuilder.WriteString(line)`,
`diff, inString = depthDiff(line, inString)` and `bracketCount += diff`. -/
def consume (v : LoopVars) (line : String) : LoopVars :=
  { responseBuilder := v.responseBuilder ++ line
    inResponse := true
    inString := (depthDiff line v.inString).2
    bracketCount := v.bracketCount + (depthDiff line v.inString).1 }

/-- The test `timeout > 0 && time.Since(start_time).Seconds() > timeout`, with
`elapsed` the clock reading. -/
def timedOut {F : Type} [Float64Ops F] (timeout elapsed : F) : Bool :=
  Float64Ops.gt timeout Float64Ops.zero && Float64Ops.gt elapsed timeout

/-- The loop `for s.stdout.Scan() { ... }` of `ExecuteCommand`, run on the lines the
scanner still holds; `err` is the error the scanner has recorded so far. Each
iteration starts after `Scan` has taken the line off the stream. -/
def readLoop {F : Type} [Float64Ops F] (timeout : F) (endErr : Option String) :
    List (Token F) → Option String → LoopVars → LoopExit × LoopVars × Scanner F
  | [], err, v =>
    (LoopExit.fellOut, v, { pending := [], endErr := endErr, err := setErr err endErr })
  | tok :: rest, err, v =>
    if timedOut timeout tok.elapsed then
      (LoopExit.fellOut, v, { pending := rest, endErr := endErr, err := setErr err tok.err })
    else if v.inResponse = false ∧ tok.text.length = 0 then
      readLoop timeout endErr rest (setErr err tok.err) v
    else if v.inResponse = false ∧ 0 < tok.text.length then
      if startsWithBrace tok.text = false then
        (LoopExit.returned ("expecting leading curly bracket, got: " ++ tok.text),
          { v with inResponse := true },
          { pending := rest, endErr := endErr, err := setErr err tok.err })
      else
        readLoop timeout endErr rest (setErr err tok.err) (consume v tok.text)
    else if v.inResponse = true then
      if (consume v tok.text).bracketCount ≤ 0 then
        (LoopExit.fellOut, consume v tok.text,
          { pending := rest, endErr := endErr, err := setErr err tok.err })
      else
        readLoop timeout endErr rest (setErr err tok.err) (consume v tok.text)
    else
      readLoop timeout endErr rest (setErr err tok.err) v

/-- The loop variables after the lines `ls` have been consumed in order. -/
def consumeAll (v : LoopVars) (ls : List String) : LoopVars :=
  ls.foldl consume v

/-- The variables as declared before the loop. -/
def LoopVars.init : LoopVars :=
  { responseBuilder := "", inResponse := false, inString := false, bracketCount := 0 }

/-- The method `(s *REPLServer) ExecuteCommand(command, timeout)`, run while holding
the mutex: the returned pair and the session afterwards. -/
def ExecuteCommand {F : Type} [Float64Ops F] (s : REPLServer F) (command : String)
    (timeout : F) : Result × REPLServer F :=
  match s.stdin.Write (command ++ "\n\n") with
  | (some e, stdin) =>
    ({ response := none, err := some ("failed to write to REPL: " ++ e) },
      { s with stdin := stdin })
  | (none, stdin) =>
    match readLoop timeout s.stdout.endErr s.stdout.pending s.stdout.err LoopVars.init with
    | (LoopExit.returned e, _, sc) =>
      ({ response := none, err := some e }, { s with stdin := stdin, stdout := sc })
    | (LoopExit.fellOut, v, sc) =>
      match sc.err with
      | some e =>
        ({ response := none, err := some ("error reading from REPL: " ++ e) },
          { s with stdin := stdin, stdout := sc })
      | none =>
        ({ response := some v.responseBuilder, err := none },
          { s with stdin := stdin, stdout := sc })

/-! ## `main`: timeout configuration and the `/healthz` handler -/

/-- The timeout `main` computes from `LEAN_REPL_TIMEOUT` (`timeoutEnv` is the result
of `os.Getenv`, empty when the variable is unset). `ParseFloat` stands for
`strconv.ParseFloat(·, 64)`, returning the value and the error (`none` is nil). -/
def timeoutFromEnv {F : Type} [Float64Ops F] (ParseFloat : String → F × Option String)
    (timeoutEnv : String) : F :=
  if timeoutEnv ≠ "" then
    match ParseFloat timeoutEnv with
    | (t, some _) => t
    | (_, none) => Float64Ops.negOne
  else
    Float64Ops.negOne

/-- The `/healthz` handler, as a function of `replServer.cmd.ProcessState`: the
status code and the body written. `http.Error` ends the message with a newline. -/
def healthz (processState : Option ProcessState) : Nat × String :=
  match processState with
  | none => (500, "REPL server is not running\n")
  | some ps => if ps.exited then (500, "REPL server is not running\n") else (200, "OK")

/-! ## Lemmas on the scan loop -/

theorem depthLoop_append (a b : String) (s : Bool) :
    depthLoop (a ++ b) s = b.data.foldl depthStep (depthLoop a s) := by
  simp [depthLoop, String.data_append, List.foldl_append]

theorem depthStep_shift (c k : Int) (e i : Bool) (ch : Char) :
    depthStep ⟨c + k, e, i⟩ ch
      = ⟨(depthStep ⟨c, e, i⟩ ch).count + k, (depthStep ⟨c, e, i⟩ ch).escaped,
          (depthStep ⟨c, e, i⟩ ch).inString⟩ := by
  unfold depthStep
  split_ifs <;> simp <;> omega

theorem foldl_depthStep_shift (l : List Char) (c k : Int) (e i : Bool) :
    l.foldl depthStep ⟨c + k, e, i⟩
      = ⟨(l.foldl depthStep ⟨c, e, i⟩).count + k, (l.foldl depthStep ⟨c, e, i⟩).escaped,
          (l.foldl depthStep ⟨c, e, i⟩).inString⟩ := by
  induction l generalizing c e i with
  | nil => rfl
  | cons ch cs ih =>
    simp only [List.foldl_cons]
    rw [depthStep_shift, ih]

theorem foldl_depthStep_inString (l : List Char) (k : Int) (h : '"' ∉ l) :
    l.foldl depthStep { count := k, escaped := false, inString := true }
      = { count := k, escaped := false, inString := true } := by
  induction l with
  | nil => rfl
  | cons c cs ih =>
    have hc : c ≠ '"' := fun e => h (by simp [e])
    have hcs : '"' ∉ cs := fun m => h (List.mem_cons_of_mem _ m)
    simp only [List.foldl_cons]
    have : depthStep { count := k, escaped := false, inString := true } c
        = { count := k, escaped := false, inString := true } := by
      simp [depthStep, hc]
    rw [this]
    exact ih hcs

theorem depthLoop_cons_quote_open (s : String) :
    depthLoop ("\"" ++ s ++ "\"") false
      = depthStep (s.data.foldl depthStep { count := 0, escaped := false, inString := true })
          '"' := by
  have h : ("\"" ++ s ++ "\"").data = '"' :: (s.data ++ ['"']) := by
    simp [String.data_append]
  simp [depthLoop, h, List.foldl_append, depthStep]

theorem depthLoop_append_of_escaped_false (a b : String) (s : Bool)
    (h : (depthLoop a s).escaped = false) :
    depthLoop (a ++ b) s
      = ⟨(depthLoop b (depthLoop a s).inString).count + (depthLoop a s).count,
          (depthLoop b (depthLoop a s).inString).escaped,
          (depthLoop b (depthLoop a s).inString).inString⟩ := by
  rw [depthLoop_append]
  rcases hx : depthLoop a s with ⟨c, e, i⟩
  rw [hx] at h
  simp only at h
  subst h
  have hs := foldl_depthStep_shift b.data 0 c false i
  rw [zero_add] at hs
  rw [hs]
  rfl

theorem depthLoop_newline (a : String) (s : Bool) :
    depthLoop (a ++ "\n") s
      = ⟨(depthLoop a s).count, false, (depthLoop a s).inString⟩ := by
  rw [depthLoop_append]
  rcases depthLoop a s with ⟨c, e, i⟩
  cases e <;> cases i <;> simp [depthStep]

/-! ## Lemmas on the read loop -/

theorem length_eq_zero_iff (s : String) : s.length = 0 ↔ s = "" := by
  constructor
  · intro h
    apply String.ext
    exact List.length_eq_zero.1 h
  · rintro rfl
    rfl

theorem guard_false {F : Type} [Float64Ops F] (timeout : F) (l : List (Token F))
    (ht : Float64Ops.gt timeout Float64Ops.zero = false
      ∨ ∀ t ∈ l, Float64Ops.gt t.elapsed timeout = false) :
    ∀ t ∈ l, timedOut timeout t.elapsed = false := by
  intro t ht'
  rcases ht with h | h
  · simp [timedOut, h]
  · simp [timedOut, h t ht']

/-- Blank lines met before the response are skipped. -/
theorem readLoop_blanks {F : Type} [Float64Ops F] (timeout : F) (endErr : Option String)
    (blanks tail : List (Token F)) (err : Option String) (v : LoopVars)
    (hv : v.inResponse = false) (hb : ∀ t ∈ blanks, t.text = "")
    (ht : ∀ t ∈ blanks,
      timedOut timeout t.elapsed = false) :
    readLoop timeout endErr (blanks ++ tail) err v
      = readLoop timeout endErr tail (blanks.foldl (fun e t => setErr e t.err) err) v := by
  induction blanks generalizing err with
  | nil => rfl
  | cons t ts ih =>
    have h1 := ht t (List.mem_cons_self _ _)
    have h2 : t.text.length = 0 := (length_eq_zero_iff _).2 (hb t (List.mem_cons_self _ _))
    simp only [List.cons_append, readLoop, h1, hv, h2, List.foldl_cons]
    simp only [Bool.false_eq_true, if_false, and_self, if_true]
    exact ih _ (fun x hx => hb x (List.mem_cons_of_mem _ hx))
      (fun x hx => ht x (List.mem_cons_of_mem _ hx))

theorem readLoop_bad_first {F : Type} [Float64Ops F] (timeout : F) (endErr : Option String)
    (bad : Token F) (rest : List (Token F)) (err : Option String) (v : LoopVars)
    (hv : v.inResponse = false) (hne : bad.text ≠ "")
    (hbrace : startsWithBrace bad.text = false)
    (ht : timedOut timeout bad.elapsed = false) :
    (readLoop timeout endErr (bad :: rest) err v).1
      = LoopExit.returned ("expecting leading curly bracket, got: " ++ bad.text) := by
  have h2 : ¬ bad.text.length = 0 := fun h => hne ((length_eq_zero_iff _).1 h)
  have h3 : 0 < bad.text.length := Nat.pos_of_ne_zero h2
  simp [readLoop, ht, hv, h2, h3, hbrace]

theorem ExecuteCommand_of_write_ok {F : Type} [Float64Ops F] (s : REPLServer F)
    (command : String) (timeout : F) (hw : s.stdin.broken = none) :
    ExecuteCommand s command timeout
      = match readLoop timeout s.stdout.endErr s.stdout.pending s.stdout.err LoopVars.init with
        | (LoopExit.returned e, _, sc) =>
          ({ response := none, err := some e },
            { s with stdin := { s.stdin with written := s.stdin.written ++ (command ++ "\n\n") },
                     stdout := sc })
        | (LoopExit.fellOut, v, sc) =>
          match sc.err with
          | some e =>
            ({ response := none, err := some ("error reading from REPL: " ++ e) },
              { s with stdin := { s.stdin with written := s.stdin.written ++ (command ++ "\n\n") },
                       stdout := sc })
          | none =>
            ({ response := some v.responseBuilder, err := none },
              { s with stdin := { s.stdin with written := s.stdin.written ++ (command ++ "\n\n") },
                       stdout := sc }) := by
  simp only [ExecuteCommand, Pipe.Write, hw]

theorem foldl_append_string (ls : List String) (acc : String) :
    ls.foldl (fun r s => r ++ s) acc = acc ++ ls.foldl (fun r s => r ++ s) "" := by
  induction ls generalizing acc with
  | nil => simp
  | cons l ls ih =>
    simp only [List.foldl_cons]
    rw [ih (acc ++ l), ih ("" ++ l), String.empty_append, String.append_assoc]

theorem consumeAll_responseBuilder (ls : List String) (v : LoopVars) :
    (consumeAll v ls).responseBuilder = v.responseBuilder ++ String.join ls := by
  induction ls generalizing v with
  | nil => simp [consumeAll, String.join]
  | cons l ls ih =>
    have h := ih (consume v l)
    simp only [consumeAll, List.foldl_cons] at h ⊢
    rw [h]
    simp only [consume, String.join, List.foldl_cons]
    rw [foldl_append_string ls ("" ++ l), String.empty_append, String.append_assoc]

theorem foldl_setErr_none {F : Type} (l : List (Token F)) (h : ∀ t ∈ l, t.err = none) :
    l.foldl (fun e t => setErr e t.err) none = none := by
  induction l with
  | nil => rfl
  | cons t ts ih =>
    simp only [List.foldl_cons, h t (List.mem_cons_self _ _), setErr]
    exact ih (fun x hx => h x (List.mem_cons_of_mem _ hx))

/-- Inside a response, the loop consumes lines while the bracket count stays positive
and the timeout does not fire. -/
theorem readLoop_open_lines {F : Type} [Float64Ops F] (timeout : F) (endErr : Option String)
    (mid tail : List (Token F)) (err : Option String) (v : LoopVars)
    (hg : ∀ t ∈ mid,
      timedOut timeout t.elapsed = false)
    (hv : v.inResponse = true)
    (hopen : ∀ k, k < mid.length →
      0 < (consumeAll v ((mid.take (k + 1)).map Token.text)).bracketCount) :
    readLoop timeout endErr (mid ++ tail) err v
      = readLoop timeout endErr tail (mid.foldl (fun e t => setErr e t.err) err)
          (consumeAll v (mid.map Token.text)) := by
  induction mid generalizing v err with
  | nil => rfl
  | cons m ms ih =>
    have h0 : 0 < (consume v m.text).bracketCount := by
      have := hopen 0 (by simp)
      simpa [consumeAll] using this
    have hnot : ¬ (consume v m.text).bracketCount ≤ 0 := not_le.2 h0
    have hm := hg m (List.mem_cons_self _ _)
    have hstep : readLoop timeout endErr ((m :: ms) ++ tail) err v
        = readLoop timeout endErr (ms ++ tail) (setErr err m.err) (consume v m.text) := by
      simp only [List.cons_append, readLoop, hm, hv]
      simp [hnot]
    rw [hstep, ih (setErr err m.err) (consume v m.text)
      (fun x hx => hg x (List.mem_cons_of_mem _ hx)) rfl]
    · simp [consumeAll]
    · intro k hk
      have := hopen (k + 1) (by simpa using hk)
      simpa [consumeAll] using this

theorem consumeAll_inResponse (v : LoopVars) (ls : List String) (hv : v.inResponse = true) :
    (consumeAll v ls).inResponse = true := by
  induction ls generalizing v with
  | nil => exact hv
  | cons l ls ih => exact ih (consume v l) rfl

theorem consumeAll_append (v : LoopVars) (ls : List String) (l : String) :
    consumeAll v (ls ++ [l]) = consume (consumeAll v ls) l := by
  simp [consumeAll, List.foldl_append]

/-- Inside a response, the loop stops at the line that brings the bracket count to zero
or below, when the timeout does not fire on it. -/
theorem readLoop_closing_line {F : Type} [Float64Ops F] (timeout : F)
    (endErr : Option String) (last : Token F) (rest : List (Token F)) (err : Option String)
    (v : LoopVars)
    (hg : timedOut timeout last.elapsed = false)
    (hv : v.inResponse = true) (hclose : (consume v last.text).bracketCount ≤ 0) :
    readLoop timeout endErr (last :: rest) err v
      = (LoopExit.fellOut, consume v last.text,
          { pending := rest, endErr := endErr, err := setErr err last.err }) := by
  simp only [readLoop, hg, hv]
  simp [hclose]

/-- The timeout firing on a line ends the loop with the variables as they are. -/
theorem readLoop_timeout {F : Type} [Float64Ops F] (timeout : F)
    (endErr : Option String) (t : Token F) (rest : List (Token F)) (err : Option String)
    (v : LoopVars)
    (hg : timedOut timeout t.elapsed = true) :
    (readLoop timeout endErr (t :: rest) err v).1 = LoopExit.fellOut ∧
      (readLoop timeout endErr (t :: rest) err v).2.1 = v ∧
      (readLoop timeout endErr (t :: rest) err v).2.2.err = setErr err t.err := by
  simp [readLoop, hg]

theorem startsWithBrace_length (line : String) (h : startsWithBrace line = true) :
    0 < line.length := by
  rcases line with ⟨d⟩
  cases d with
  | nil => simp [startsWithBrace] at h
  | cons c cs => simp [String.length]

theorem readLoop_first {F : Type} [Float64Ops F] (timeout : F) (endErr : Option String)
    (first : Token F) (rest : List (Token F)) (err : Option String) (v : LoopVars)
    (hg : timedOut timeout first.elapsed = false)
    (hv : v.inResponse = false) (hfirst : startsWithBrace first.text = true) :
    readLoop timeout endErr (first :: rest) err v
      = readLoop timeout endErr rest (setErr err first.err) (consume v first.text) := by
  have h3 := startsWithBrace_length _ hfirst
  have h2 : ¬ first.text.length = 0 := Nat.pos_iff_ne_zero.1 h3
  simp only [readLoop, hg, hv]
  simp [h2, h3, hfirst]

/-! ## Properties of `depthDiff` -/

/-- C3, as amended: scanning `a` and then `b` from the state that `a` left gives the
same depth change and in-string flag as scanning `a ++ b` in one call, whenever the
scan of `a` does not end with a pending escape. -/
theorem depthDiff_append_of_no_pending_escape (a b : String) (s : Bool)
    (h : (depthLoop a s).escaped = false) :
    depthDiff (a ++ b) s
      = ((depthDiff a s).1 + (depthDiff b (depthDiff a s).2).1,
         (depthDiff b (depthDiff a s).2).2) := by
  simp only [depthDiff, depthLoop_append_of_escaped_false a b s h]
  rw [add_comm]

/-- Witness for C3 as amended: the two lines of the response `{"a":` / `"x}y"}`. -/
theorem depthDiff_append_of_no_pending_escape_witness :
    depthDiff ("\x7b\"a\":" ++ "\"x\x7dy\"\x7d") false
      = ((depthDiff "\x7b\"a\":" false).1
          + (depthDiff "\"x\x7dy\"\x7d" (depthDiff "\x7b\"a\":" false).2).1,
         (depthDiff "\"x\x7dy\"\x7d" (depthDiff "\x7b\"a\":" false).2).2) :=
  depthDiff_append_of_no_pending_escape "\x7b\"a\":" "\"x\x7dy\"\x7d" false (by decide)

/-- C3, counterexample: with `a` a lone backslash and `b` an opening brace, scanned
outside a string, the two calls give depth change 0 + 1 while the single call on
`a ++ b` gives 0: the pending escape is not carried from `a` to `b`. -/
theorem depthDiff_append_counterexample :
    depthDiff ("\\" ++ "\x7b") false
      ≠ ((depthDiff "\\" false).1 + (depthDiff "\x7b" (depthDiff "\\" false).2).1,
         (depthDiff "\x7b" (depthDiff "\\" false).2).2) := by
  decide

/-- C4, the code at the failing input: inside a string, a backslash followed by a
double quote leaves the scanner outside the string, so the closing brace that follows
is counted (result `(-1, false)`), while `depthDiff("}", true)` is `(0, true)`. -/
theorem depthDiff_escaped_quote_toggles :
    depthDiff ("\\\"" ++ "\x7d") true = (-1, false) ∧ depthDiff "\x7d" true = (0, true) := by
  decide

/-- C5: for a string `s` without a double quote, `depthDiff(s, true) = (0, true)`
whatever braces it holds, and when `s` has no backslash either, the quoted literal
`"s"` scanned from outside a string gives depth change 0 and ends outside the string. -/
theorem depthDiff_braces_in_string (s : String) (hq : '"' ∉ s.data) :
    depthDiff s true = (0, true) ∧
      ('\\' ∉ s.data → depthDiff ("\"" ++ s ++ "\"") false = (0, false)) := by
  constructor
  · simp [depthDiff, depthLoop, foldl_depthStep_inString s.data 0 hq]
  · intro _
    simp [depthDiff, depthLoop_cons_quote_open, foldl_depthStep_inString s.data 0 hq,
      depthStep]

/-- Witness for C5: the string `{}}{` of four braces. -/
theorem depthDiff_braces_in_string_witness :
    depthDiff "\x7b\x7d\x7d\x7b" true = (0, true) ∧
      ('\\' ∉ "\x7b\x7d\x7d\x7b".data →
        depthDiff ("\"" ++ "\x7b\x7d\x7d\x7b" ++ "\"") false = (0, false)) :=
  depthDiff_braces_in_string "\x7b\x7d\x7d\x7b" (by decide)

/-- Lines as the scanner splits them: scanning `a`, a line terminator and `b` in one
call gives the same depth change and in-string flag as scanning `a` and then `b` from
the in-string flag that `a` left. A backslash ending `a` escapes the terminator. -/
theorem depthDiff_lines (a b : String) (s : Bool) :
    depthDiff (a ++ "\n" ++ b) s
      = ((depthDiff a s).1 + (depthDiff b (depthDiff a s).2).1,
         (depthDiff b (depthDiff a s).2).2) := by
  have h := depthLoop_append_of_escaped_false (a ++ "\n") b s (by rw [depthLoop_newline])
  simp only [depthLoop_newline] at h
  simp only [depthDiff, h]
  rw [add_comm]

/-- The response `{"a":` / `"x}y"}`: the brace inside the string on the second line is
not counted, and the two lines together have depth change 0. -/
theorem depthDiff_lines_example :
    depthDiff "\x7b\"a\":" false = (1, false) ∧
      depthDiff "\"x\x7dy\"\x7d" false = (-1, false) ∧
      depthDiff ("\x7b\"a\":" ++ "\n" ++ "\"x\x7dy\"\x7d") false = (0, false) := by
  decide

/-! ## Properties of `ExecuteCommand` -/

/-- C1, the code at the failing input: the response `{"result":"2"}` is complete on
its first line, yet the loop goes on to the next line, appends it and only then
stops; the call returns both lines joined and leaves nothing in the stream. -/
theorem ExecuteCommand_single_line_reads_next :
    ExecuteCommand
        ({ processState := none, stdin := { written := "", broken := none },
           stdout := { pending := [⟨"\x7b\"result\":\"2\"\x7d", 0, none⟩,
                                   ⟨"\x7b\"result\":\"3\"\x7d", 0, none⟩],
                       endErr := none, err := none } } : REPLServer Int)
        "\x7b\"cmd\":\"1+1\"\x7d" (-1)
      = ({ response := some "\x7b\"result\":\"2\"\x7d\x7b\"result\":\"3\"\x7d", err := none },
         { processState := none,
           stdin := { written := "\x7b\"cmd\":\"1+1\"\x7d\n\n", broken := none },
           stdout := { pending := [], endErr := none, err := none } }) := by
  decide

/-- C2: when the write succeeds, the pending output is blank lines followed by a
non-empty line that does not begin with an opening brace, and the timeout does not
fire on any of these lines (no timeout in force, or the clock not past it), the call
returns nil bytes and the error naming that line, whatever lines follow. -/
theorem ExecuteCommand_protocol_violation {F : Type} [Float64Ops F] (s : REPLServer F)
    (command : String) (timeout : F) (blanks : List (Token F)) (bad : Token F)
    (rest : List (Token F))
    (hw : s.stdin.broken = none)
    (hp : s.stdout.pending = blanks ++ bad :: rest)
    (hb : ∀ t ∈ blanks, t.text = "")
    (hne : bad.text ≠ "")
    (hbrace : startsWithBrace bad.text = false)
    (ht : Float64Ops.gt timeout Float64Ops.zero = false
      ∨ ∀ t ∈ blanks ++ [bad], Float64Ops.gt t.elapsed timeout = false) :
    (ExecuteCommand s command timeout).1
      = { response := none,
          err := some ("expecting leading curly bracket, got: " ++ bad.text) } := by
  have hg := guard_false timeout (blanks ++ [bad]) ht
  have h1 := readLoop_blanks timeout s.stdout.endErr blanks (bad :: rest) s.stdout.err
    LoopVars.init rfl hb (fun t m => hg t (List.mem_append_left _ m))
  have h2 := readLoop_bad_first timeout s.stdout.endErr bad rest
    (blanks.foldl (fun e t => setErr e t.err) s.stdout.err) LoopVars.init rfl hne hbrace
    (hg bad (by simp))
  rw [ExecuteCommand_of_write_ok s command timeout hw, hp, h1]
  rcases hx : readLoop timeout s.stdout.endErr (bad :: rest)
    (blanks.foldl (fun e t => setErr e t.err) s.stdout.err) LoopVars.init with ⟨ex, v, sc⟩
  rw [hx] at h2
  simp only at h2
  subst h2
  rw [hx]

/-- Witness for C2: a blank line, then the line `oops`, then `{}`; no timeout. -/
theorem ExecuteCommand_protocol_violation_witness :
    (ExecuteCommand
        ({ processState := none, stdin := { written := "", broken := none },
           stdout := { pending := [⟨"", 0, none⟩, ⟨"oops", 0, none⟩, ⟨"\x7b\x7d", 0, none⟩],
                       endErr := none, err := none } } : REPLServer Int)
        "c" (-1)).1
      = { response := none,
          err := some ("expecting leading curly bracket, got: " ++ "oops") } :=
  ExecuteCommand_protocol_violation _ "c" (-1) [⟨"", 0, none⟩] ⟨"oops", 0, none⟩
    [⟨"\x7b\x7d", 0, none⟩] rfl rfl (by decide) (by decide) (by decide) (Or.inl (by decide))

/-- C6, the code at the failing input: with a timeout of 1 second, the first line read
at 0 seconds and the second delivered at 2 seconds, the call returns the first line
without error, and the second line is gone from the stream although it is not part
of the returned bytes: only the third line is left for the next command. -/
theorem ExecuteCommand_timeout_drops_line :
    ExecuteCommand
        ({ processState := none, stdin := { written := "", broken := none },
           stdout := { pending := [⟨"\x7b\"a\":", 0, none⟩, ⟨"1\x7d", 2, none⟩,
                                   ⟨"", 3, none⟩],
                       endErr := none, err := none } } : REPLServer Int)
        "c" 1
      = ({ response := some "\x7b\"a\":", err := none },
         { processState := none, stdin := { written := "c\n\n", broken := none },
           stdout := { pending := [⟨"", 3, none⟩], endErr := none, err := none } }) := by
  decide

/-- C7, the code at the failing input: the write succeeds and the output stream is at
end-of-stream without an error; the call returns empty bytes and a nil error. -/
theorem ExecuteCommand_eof_empty_success :
    (ExecuteCommand
        ({ processState := none, stdin := { written := "", broken := none },
           stdout := { pending := [], endErr := none, err := none } } : REPLServer Int)
        "c" (-1)).1
      = { response := some "", err := none } := by
  decide

/-- When the write to the process's standard input fails, the call returns nil bytes
and the write error, and the session is left as it was: no line is read. -/
theorem ExecuteCommand_write_failure {F : Type} [Float64Ops F] (s : REPLServer F)
    (command : String) (timeout : F) (e : String) (hw : s.stdin.broken = some e) :
    ExecuteCommand s command timeout
      = ({ response := none, err := some ("failed to write to REPL: " ++ e) }, s) := by
  simp only [ExecuteCommand, Pipe.Write, hw]

/-- The write-failure case on a closed pipe, with a line pending in the stream. -/
theorem ExecuteCommand_write_failure_witness :
    ExecuteCommand
        ({ processState := none,
           stdin := { written := "", broken := some "write |1: broken pipe" },
           stdout := { pending := [⟨"\x7b\x7d", 0, none⟩], endErr := none, err := none } }
          : REPLServer Int)
        "c" (-1)
      = ({ response := none,
           err := some ("failed to write to REPL: " ++ "write |1: broken pipe") },
         { processState := none,
           stdin := { written := "", broken := some "write |1: broken pipe" },
           stdout := { pending := [⟨"\x7b\x7d", 0, none⟩], endErr := none, err := none } }) :=
  ExecuteCommand_write_failure _ "c" (-1) "write |1: broken pipe" rfl

/-- When the write succeeds and the output stream yields no line and ends with a read
error other than EOF, the call returns nil bytes and the read error. -/
theorem ExecuteCommand_read_failure {F : Type} [Float64Ops F] (s : REPLServer F)
    (command : String) (timeout : F) (e : String) (hw : s.stdin.broken = none)
    (hp : s.stdout.pending = []) (herr : s.stdout.err = none)
    (hend : s.stdout.endErr = some e) :
    (ExecuteCommand s command timeout).1
      = { response := none, err := some ("error reading from REPL: " ++ e) } := by
  rw [ExecuteCommand_of_write_ok s command timeout hw, hp, herr, hend]
  simp [readLoop, setErr]

/-- The read-failure case with the error `file already closed`. -/
theorem ExecuteCommand_read_failure_witness :
    (ExecuteCommand
        ({ processState := none, stdin := { written := "", broken := none },
           stdout := { pending := [], endErr := some "file already closed", err := none } }
          : REPLServer Int)
        "c" (-1)).1
      = { response := none,
          err := some ("error reading from REPL: " ++ "file already closed") } :=
  ExecuteCommand_read_failure _ "c" (-1) "file already closed" rfl rfl rfl rfl

/-- Framing of a response that spans several lines. With the write succeeding, no
timeout in force and no read error, let the pending output be blank lines, then a line
beginning with an opening brace, then further lines, such that the cumulative bracket
count is positive after every line before `last` and zero or below after `last`. Then
the call returns exactly these lines joined, from the first non-blank line through
`last`, and the lines after `last` stay in the stream. -/
theorem ExecuteCommand_frames_response {F : Type} [Float64Ops F] (s : REPLServer F)
    (command : String) (timeout : F) (blanks : List (Token F)) (first : Token F)
    (mid : List (Token F)) (last : Token F) (rest : List (Token F))
    (hw : s.stdin.broken = none)
    (hno : Float64Ops.gt timeout Float64Ops.zero = false)
    (herr : s.stdout.err = none)
    (herrs : ∀ t ∈ blanks ++ first :: (mid ++ [last]), t.err = none)
    (hp : s.stdout.pending = blanks ++ first :: (mid ++ last :: rest))
    (hb : ∀ t ∈ blanks, t.text = "")
    (hfirst : startsWithBrace first.text = true)
    (hopen : ∀ k, k ≤ mid.length →
      0 < (consumeAll LoopVars.init (((first :: mid).take (k + 1)).map Token.text)).bracketCount)
    (hclose :
      (consumeAll LoopVars.init ((first :: (mid ++ [last])).map Token.text)).bracketCount ≤ 0) :
    ExecuteCommand s command timeout
      = ({ response := some (String.join ((first :: (mid ++ [last])).map Token.text)),
           err := none },
         { processState := s.processState,
           stdin := { written := s.stdin.written ++ (command ++ "\n\n"),
                      broken := s.stdin.broken },
           stdout := { pending := rest, endErr := s.stdout.endErr, err := none } }) := by
  have hg : ∀ t : Token F,
      timedOut timeout t.elapsed = false :=
    fun t => by simp [timedOut, hno]
  have h1 := readLoop_blanks timeout s.stdout.endErr blanks (first :: (mid ++ last :: rest))
    s.stdout.err LoopVars.init rfl hb (fun t _ => hg t)
  have hbl : blanks.foldl (fun e t => setErr e t.err) s.stdout.err = none := by
    rw [herr]
    exact foldl_setErr_none blanks (fun t m => herrs t (List.mem_append_left _ m))
  have hfe : first.err = none := herrs first (by simp)
  have hle : last.err = none := herrs last (by simp)
  have h2 := readLoop_first timeout s.stdout.endErr first (mid ++ last :: rest) none
    LoopVars.init (hg first) rfl hfirst
  have h3 := readLoop_open_lines timeout s.stdout.endErr mid (last :: rest) none
    (consume LoopVars.init first.text) (fun t _ => hg t) rfl
    (fun k hk => by
      have := hopen (k + 1) (by omega)
      simpa [consumeAll] using this)
  have hml : mid.foldl (fun e t => setErr e t.err) none = none :=
    foldl_setErr_none mid
      (fun t m => herrs t (List.mem_append_right _
        (List.mem_cons_of_mem _ (List.mem_append_left _ m))))
  have hall : consume (consumeAll (consume LoopVars.init first.text) (mid.map Token.text))
      last.text = consumeAll LoopVars.init ((first :: (mid ++ [last])).map Token.text) := by
    simp [consumeAll, List.foldl_append]
  have h4 := readLoop_closing_line timeout s.stdout.endErr last rest none
    (consumeAll (consume LoopVars.init first.text) (mid.map Token.text)) (hg last)
    (consumeAll_inResponse _ _ rfl) (by rw [hall]; exact hclose)
  have hrb : (consumeAll LoopVars.init
      ((first :: (mid ++ [last])).map Token.text)).responseBuilder
        = String.join ((first :: (mid ++ [last])).map Token.text) := by
    rw [consumeAll_responseBuilder]
    exact String.empty_append _
  rw [ExecuteCommand_of_write_ok s command timeout hw, hp, h1, hbl, h2, hfe]
  simp only [setErr]
  rw [h3, hml, h4, hall, hle]
  simp only [setErr, hrb]

/-- The response of four lines `{` / `"a": {"b":` / `1}` / `}` after a blank line: the
call returns the four lines joined and leaves the two lines that follow. -/
theorem ExecuteCommand_frames_response_witness :
    ExecuteCommand
        ({ processState := none, stdin := { written := "", broken := none },
           stdout := { pending := [⟨"", 0, none⟩, ⟨"\x7b", 0, none⟩, ⟨"\"a\": \x7b\"b\":", 0, none⟩,
                                   ⟨"1\x7d", 0, none⟩, ⟨"\x7d", 0, none⟩, ⟨"", 0, none⟩,
                                   ⟨"\x7b\x7d", 0, none⟩],
                       endErr := none, err := none } } : REPLServer Int)
        "c" (-1)
      = ({ response := some (String.join (List.map Token.text
             (⟨"\x7b", 0, none⟩ :: ([⟨"\"a\": \x7b\"b\":", 0, none⟩, ⟨"1\x7d", 0, none⟩]
               ++ [⟨"\x7d", 0, none⟩])))),
           err := none },
         { processState := none, stdin := { written := "" ++ ("c" ++ "\n\n"), broken := none },
           stdout := { pending := [⟨"", 0, none⟩, ⟨"\x7b\x7d", 0, none⟩], endErr := none,
                       err := none } }) :=
  ExecuteCommand_frames_response _ "c" (-1) [⟨"", 0, none⟩] ⟨"\x7b", 0, none⟩
    [⟨"\"a\": \x7b\"b\":", 0, none⟩, ⟨"1\x7d", 0, none⟩] ⟨"\x7d", 0, none⟩
    [⟨"", 0, none⟩, ⟨"\x7b\x7d", 0, none⟩] rfl (by decide) rfl (by decide) rfl (by decide)
    (by decide) (by decide) (by decide)

/-- Timeout inside a response. With a timeout in force, the write succeeding and no read
error, let the pending output be blank lines, a line beginning with an opening brace
and further lines that keep the bracket count positive, all examined before the
timeout has elapsed, and then a line examined after it has elapsed. Then the call
returns without error exactly the lines consumed before that check, joined. -/
theorem ExecuteCommand_timeout_returns_accumulated {F : Type} [Float64Ops F]
    (s : REPLServer F) (command : String) (timeout : F) (blanks : List (Token F))
    (first : Token F) (mid : List (Token F)) (late : Token F) (rest : List (Token F))
    (hw : s.stdin.broken = none)
    (herr : s.stdout.err = none)
    (herrs : ∀ t ∈ blanks ++ first :: (mid ++ [late]), t.err = none)
    (hp : s.stdout.pending = blanks ++ first :: (mid ++ late :: rest))
    (hb : ∀ t ∈ blanks, t.text = "")
    (hfirst : startsWithBrace first.text = true)
    (hopen : ∀ k, 1 ≤ k → k ≤ mid.length →
      0 < (consumeAll LoopVars.init (((first :: mid).take (k + 1)).map Token.text)).bracketCount)
    (hpos : Float64Ops.gt timeout Float64Ops.zero = true)
    (hbefore : ∀ t ∈ blanks ++ first :: mid, Float64Ops.gt t.elapsed timeout = false)
    (hfire : Float64Ops.gt late.elapsed timeout = true) :
    (ExecuteCommand s command timeout).1
      = { response := some (String.join ((first :: mid).map Token.text)), err := none } := by
  have hg : ∀ t ∈ blanks ++ first :: mid,
      timedOut timeout t.elapsed = false :=
    fun t m => by simp [timedOut, hbefore t m]
  have h1 := readLoop_blanks timeout s.stdout.endErr blanks (first :: (mid ++ late :: rest))
    s.stdout.err LoopVars.init rfl hb (fun t m => hg t (List.mem_append_left _ m))
  have hbl : blanks.foldl (fun e t => setErr e t.err) s.stdout.err = none := by
    rw [herr]
    exact foldl_setErr_none blanks (fun t m => herrs t (List.mem_append_left _ m))
  have hfe : first.err = none := herrs first (by simp)
  have hle : late.err = none := herrs late (by simp)
  have h2 := readLoop_first timeout s.stdout.endErr first (mid ++ late :: rest) none
    LoopVars.init (hg first (by simp)) rfl hfirst
  have h3 := readLoop_open_lines timeout s.stdout.endErr mid (late :: rest) none
    (consume LoopVars.init first.text)
    (fun t m => hg t (List.mem_append_right _ (List.mem_cons_of_mem _ m))) rfl
    (fun k hk => by
      have := hopen (k + 1) (by omega) (by omega)
      simpa [consumeAll] using this)
  have hml : mid.foldl (fun e t => setErr e t.err) none = none :=
    foldl_setErr_none mid
      (fun t m => herrs t (List.mem_append_right _
        (List.mem_cons_of_mem _ (List.mem_append_left _ m))))
  have hall : consumeAll (consume LoopVars.init first.text) (mid.map Token.text)
      = consumeAll LoopVars.init ((first :: mid).map Token.text) := by
    simp [consumeAll]
  have h4 := readLoop_timeout timeout s.stdout.endErr late rest none
    (consumeAll LoopVars.init ((first :: mid).map Token.text)) (by simp [timedOut, hpos, hfire])
  have hrb : (consumeAll LoopVars.init ((first :: mid).map Token.text)).responseBuilder
        = String.join ((first :: mid).map Token.text) := by
    rw [consumeAll_responseBuilder]
    exact String.empty_append _
  rw [ExecuteCommand_of_write_ok s command timeout hw, hp, h1, hbl, h2, hfe]
  simp only [setErr]
  rw [h3, hml, hall]
  rcases hx : readLoop timeout s.stdout.endErr (late :: rest) none
    (consumeAll LoopVars.init ((first :: mid).map Token.text)) with ⟨ex, v, sc⟩
  rw [hx] at h4
  obtain ⟨e1, e2, e3⟩ := h4
  simp only at e1 e2 e3
  subst e1 e2
  simp only [hle, setErr] at e3
  simp only [e3, hrb]

/-- A timeout of 2 seconds with lines examined at 0, 0, 1 and 3 seconds: the call
returns the two lines of the response read before the timeout. -/
theorem ExecuteCommand_timeout_returns_accumulated_witness :
    (ExecuteCommand
        ({ processState := none, stdin := { written := "", broken := none },
           stdout := { pending := [⟨"", 0, none⟩, ⟨"\x7b", 0, none⟩, ⟨"\"a\":", 1, none⟩,
                                   ⟨"1\x7d", 3, none⟩, ⟨"", 4, none⟩],
                       endErr := none, err := none } } : REPLServer Int)
        "c" 2).1
      = { response := some (String.join (List.map Token.text
            [⟨"\x7b", 0, none⟩, (⟨"\"a\":", 1, none⟩ : Token Int)])),
          err := none } :=
  ExecuteCommand_timeout_returns_accumulated _ "c" 2 [⟨"", 0, none⟩] ⟨"\x7b", 0, none⟩
    [⟨"\"a\":", 1, none⟩] ⟨"1\x7d", 3, none⟩ [⟨"", 4, none⟩] rfl rfl (by decide) rfl
    (by decide) (by decide) (by decide) (by decide) (by decide) (by decide)

/-- The response delivered as the two lines `{"a":` and `"x}y"}`: the closing brace
inside the string on the second line is not taken for the end of the response; the
call returns both lines joined and leaves the line that follows in the stream. -/
theorem ExecuteCommand_brace_in_string_scenario :
    ExecuteCommand
        ({ processState := none, stdin := { written := "", broken := none },
           stdout := { pending := [⟨"\x7b\"a\":", 0, none⟩, ⟨"\"x\x7dy\"\x7d", 0, none⟩,
                                   ⟨"\x7b\"b\":1\x7d", 0, none⟩],
                       endErr := none, err := none } } : REPLServer Int)
        "c" (-1)
      = ({ response := some "\x7b\"a\":\"x\x7dy\"\x7d", err := none },
         { processState := none, stdin := { written := "c\n\n", broken := none },
           stdout := { pending := [⟨"\x7b\"b\":1\x7d", 0, none⟩], endErr := none,
                       err := none } }) := by
  decide

/-! ## Properties of `main` -/

/-- C8, the code at the failing input: with `cmd.ProcessState` still nil (the process
was started and `Wait` has not returned) the handler answers 500 with the message
"REPL server is not running". -/
theorem healthz_running_reports_down :
    healthz none = (500, "REPL server is not running\n") := by
  decide

/-- C10, the code at the failing inputs: when `ParseFloat` succeeds (here on "5",
giving 5) the timeout is -1, and when it fails (here on "abc", giving 0 and an error)
the timeout is the value returned with the error, 0. -/
theorem timeoutFromEnv_inverted :
    timeoutFromEnv (fun _ => ((5 : Int), none)) "5" = -1 ∧
      timeoutFromEnv (fun _ => ((0 : Int), some "invalid syntax")) "abc" = 0 := by
  decide

end LeanServer
